import Mathlib

/-!
Verification of the kote messaging engine (a peer-to-peer instant messenger
over an anonymous overlay network).  The definitions below are a shallow
embedding of the Python sources:

  * `kote/protocol.py`  — wire codec (`Message.parse`, `Message.__bytes__`),
    including a faithful model of Python's strict UTF-8 decoder/encoder;
  * `kote/addressbook.py` — the four-dict address book;
  * `kote/core.py` — per-peer sender retry/stash loop, stash replay on the
    offline→online transition, the inbound handler with its UUID dedup ring
    and authorization gating, the pinger's peer-selection policy,
    `add_contact` and `send_message`.

Python dicts are modelled as association lists with replace-or-append
assignment and delete-all-occurrences removal (keys of a dict are unique, so
these coincide with dict semantics on every reachable state).  Asynchrony is
modelled by sequentializing each handler: the event loop runs every handler
body atomically between awaits, and each claim below concerns a single
handler body (or an explicitly sequenced list of them), so the sequential
model is exact for them.  Hook invocations and queue operations are recorded
in explicit event traces.
-/

namespace Kote

/-! ## Python dict model (association lists, unique keys) -/

/-- `d[k]` lookup: first binding of `k`, `none` when absent. -/
def dictGet {κ β : Type} [DecidableEq κ] (k : κ) : List (κ × β) → Option β
  | [] => none
  | (k', v) :: rest => if k' = k then some v else dictGet k rest

/-- `d[k] = v` assignment: replace the binding in place, or append a new one. -/
def dictSet {κ β : Type} [DecidableEq κ] (k : κ) (v : β) : List (κ × β) → List (κ × β)
  | [] => [(k, v)]
  | (k', v') :: rest => if k' = k then (k, v) :: rest else (k', v') :: dictSet k v rest

/-- `del d[k]`: drop every binding of `k` (dict keys are unique, so this is
the single-entry deletion of Python on reachable states). -/
def dictDel {κ β : Type} [DecidableEq κ] (k : κ) : List (κ × β) → List (κ × β)
  | [] => []
  | (k', v') :: rest => if k' = k then dictDel k rest else (k', v') :: dictDel k rest

/-! ## UTF-8 (Python's strict `bytes.decode()` / `str.encode()`)

Code points are `Nat`s; byte strings are `List Nat`.  The decoder accepts
exactly the valid UTF-8 byte sequences (rejecting overlong forms, surrogates
and code points above `0x10FFFF`), as CPython's strict codec does. -/

/-- Encode one unicode scalar value as UTF-8 bytes. -/
def utf8EncodeChar (c : Nat) : List Nat :=
  if c < 0x80 then [c]
  else if c < 0x800 then [0xC0 + c / 0x40, 0x80 + c % 0x40]
  else if c < 0x10000 then [0xE0 + c / 0x1000, 0x80 + c / 0x40 % 0x40, 0x80 + c % 0x40]
  else [0xF0 + c / 0x40000, 0x80 + c / 0x1000 % 0x40, 0x80 + c / 0x40 % 0x40, 0x80 + c % 0x40]

/-- `str.encode()`: concatenation of the characters' UTF-8 encodings. -/
def utf8Encode : List Nat → List Nat
  | [] => []
  | c :: cs => utf8EncodeChar c ++ utf8Encode cs

/-- Strict UTF-8 decoder (`bytes.decode()`), fuelled for structural
recursion; each successful step consumes at least one byte, so running it
with fuel `bs.length` (as `utf8Decode` does) never exhausts the fuel and the
fuelled function agrees with the unbounded decoder. `none` models
`UnicodeError`. -/
def utf8DecodeF : Nat → List Nat → Option (List Nat)
  | _, [] => some []
  | 0, _ :: _ => none
  | fuel + 1, b0 :: rest =>
    if b0 < 0x80 then
      (utf8DecodeF fuel rest).map (b0 :: ·)
    else if b0 < 0xC2 then none
    else if b0 < 0xE0 then
      match rest with
      | b1 :: rest2 =>
        if 0x80 ≤ b1 ∧ b1 < 0xC0 then
          (utf8DecodeF fuel rest2).map (((b0 - 0xC0) * 0x40 + (b1 - 0x80)) :: ·)
        else none
      | [] => none
    else if b0 < 0xF0 then
      match rest with
      | b1 :: b2 :: rest2 =>
        if (0x80 ≤ b1 ∧ b1 < 0xC0) ∧ (b0 = 0xE0 → 0xA0 ≤ b1) ∧ (b0 = 0xED → b1 < 0xA0)
            ∧ (0x80 ≤ b2 ∧ b2 < 0xC0) then
          (utf8DecodeF fuel rest2).map
            (((b0 - 0xE0) * 0x1000 + (b1 - 0x80) * 0x40 + (b2 - 0x80)) :: ·)
        else none
      | _ => none
    else if b0 < 0xF5 then
      match rest with
      | b1 :: b2 :: b3 :: rest2 =>
        if (0x80 ≤ b1 ∧ b1 < 0xC0) ∧ (b0 = 0xF0 → 0x90 ≤ b1) ∧ (b0 = 0xF4 → b1 < 0x90)
            ∧ (0x80 ≤ b2 ∧ b2 < 0xC0) ∧ (0x80 ≤ b3 ∧ b3 < 0xC0) then
          (utf8DecodeF fuel rest2).map
            (((b0 - 0xF0) * 0x40000 + (b1 - 0x80) * 0x1000 + (b2 - 0x80) * 0x40 + (b3 - 0x80)) :: ·)
        else none
      | _ => none
    else none

/-- Strict UTF-8 decoding of a whole byte string. -/
def utf8Decode (bs : List Nat) : Option (List Nat) := utf8DecodeF bs.length bs

/-! ## Wire protocol (`kote/protocol.py`)

`Message` mirrors the Python class: a numeric `code`, the 16 raw UUID bytes,
the content as a list of unicode code points, the peer `destination` and the
optional local nickname `name` (set on received messages). -/

/-- 1 byte for code, 16 for UUID, 1007 for content. -/
def MAX_MESSAGE_LENGTH : Nat := 1024

structure Message where
  code : Nat
  uuid : List Nat
  content : List Nat := []
  destination : String := ""
  name : Option String := none
deriving DecidableEq

def Message.AUTHORIZATION : Nat := 1

def Message.PING : Nat := 2

def Message.PRIVATE : Nat := 3

def Message.PUBLIC : Nat := 4

def Message.OK : Nat := 5

def Message.UNAUTHORIZED : Nat := 6

/-- `Message.valid_code`: membership in the six message codes. -/
def Message.valid_code (code : Nat) : Bool :=
  decide (code ∈ [Message.AUTHORIZATION, Message.PING, Message.PRIVATE, Message.PUBLIC,
                  Message.OK, Message.UNAUTHORIZED])

/-- `Message.__bytes__`: one code byte, the 16 UUID bytes, then the UTF-8
bytes of the content.  Total, with no length check. -/
def Message.toBytes (m : Message) : List Nat :=
  m.code :: (m.uuid ++ utf8Encode m.content)

/-- `Message.parse`: size check, code check, UUID slice `data[1:17]`, strict
UTF-8 decoding of `data[17:]`; `none` models `ValidationError`.  (Python only
decodes when `len(data) > 17` and otherwise uses `""`; decoding the empty
byte string yields the empty string, so the two coincide.) -/
def Message.parse (data : List Nat) (destination : String) : Option Message :=
  if data.length < 17 ∨ data.length > MAX_MESSAGE_LENGTH then none
  else
    match data with
    | [] => none
    | b :: rest =>
      if Message.valid_code b then
        match utf8Decode (rest.drop 16) with
        | some cs => some { code := b, uuid := rest.take 16, content := cs,
                            destination := destination }
        | none => none
      else none

/-! ## Address book (`kote/addressbook.py`)

Four dicts: name→address, address→name, address→last-seen timestamp
(`none` until first `set_online`), address→online flag.  Timestamps are
`Nat` seconds. -/

def MAX_IDLE : Nat := 1800

structure Addressbook where
  nameAddress : List (String × String) := []
  addressName : List (String × String) := []
  lastSeen : List (String × Option Nat) := []
  onlineMap : List (String × Bool) := []
deriving DecidableEq

/-- `Addressbook.is_valid_address`: the regex `^[a-zA-Z0-9]{52}$`. -/
def Addressbook.is_valid_address (a : String) : Bool :=
  a.length = 52 && a.data.all fun c =>
    (('a' ≤ c && c ≤ 'z') || ('A' ≤ c && c ≤ 'Z') || ('0' ≤ c && c ≤ '9'))

/-- `Addressbook.__setitem__`: duplicate and validity checks, then the four
dict assignments; `Except.error` models the raised `ValueError`. -/
def Addressbook.setItem (b : Addressbook) (name address : String) :
    Except String Addressbook :=
  if (dictGet name b.nameAddress).isSome ∨ (dictGet address b.addressName).isSome then
    .error "Entry already exists"
  else if ¬ Addressbook.is_valid_address address then
    .error "Invalid address"
  else
    .ok { nameAddress := dictSet name address b.nameAddress,
          addressName := dictSet address name b.addressName,
          lastSeen := dictSet address none b.lastSeen,
          onlineMap := dictSet address false b.onlineMap }

/-- `Addressbook.__delitem__`: remove the four entries; `none` models the
`KeyError` raised when the name is absent (raised before any mutation). -/
def Addressbook.delItem (b : Addressbook) (name : String) : Option Addressbook :=
  match dictGet name b.nameAddress with
  | none => none
  | some addr =>
    some { nameAddress := dictDel name b.nameAddress,
           addressName := dictDel addr b.addressName,
           lastSeen := dictDel addr b.lastSeen,
           onlineMap := dictDel addr b.onlineMap }

/-- `Addressbook.get_name`. -/
def Addressbook.get_name (b : Addressbook) (address : String) : Option String :=
  dictGet address b.addressName

/-- `Addressbook.set_online`: stamp `last_seen = now` if the address has a
last-seen record, and raise the online flag if it has an online record (two
independent conditional updates, as in the source). -/
def Addressbook.set_online (b : Addressbook) (address : String) (now : Nat) : Addressbook :=
  { b with
    lastSeen := if (dictGet address b.lastSeen).isSome then dictSet address (some now) b.lastSeen else b.lastSeen,
    onlineMap := if (dictGet address b.onlineMap).isSome then dictSet address true b.onlineMap else b.onlineMap }

/-- `Addressbook.set_offline`: clear the online flag (last_seen preserved). -/
def Addressbook.set_offline (b : Addressbook) (address : String) : Addressbook :=
  if (dictGet address b.onlineMap).isSome then
    { b with onlineMap := dictSet address false b.onlineMap } else b

/-- `Addressbook.is_online`. -/
def Addressbook.is_online (b : Addressbook) (address : String) : Bool :=
  match dictGet address b.onlineMap with
  | some v => v
  | none => false

/-- `Addressbook.values()`: the addresses, in insertion order. -/
def Addressbook.values (b : Addressbook) : List String :=
  b.nameAddress.map (·.2)

/-- `Addressbook.online_peers()`. -/
def Addressbook.online_peers (b : Addressbook) : List String :=
  b.values.filter (b.is_online ·)

/-- The address-book operations a client can perform (timestamps are made
explicit arguments). -/
inductive BookOp where
  | insert (name address : String)
  | remove (name : String)
  | setOnline (address : String) (now : Nat)
  | setOffline (address : String)
deriving DecidableEq

/-- Apply one operation; an operation that raises in Python leaves the book
unchanged (both `ValueError` on insert and `KeyError` on remove are raised
before any mutation). -/
def BookOp.apply (b : Addressbook) : BookOp → Addressbook
  | .insert n a => match b.setItem n a with
    | .ok b2 => b2
    | .error _ => b
  | .remove n => (b.delItem n).getD b
  | .setOnline a t => b.set_online a t
  | .setOffline a => b.set_offline a

/-- Run a sequence of operations from the empty address book. -/
def runBookOps (ops : List BookOp) : Addressbook :=
  ops.foldl BookOp.apply {}

/-- The C7 state invariant: the two name/address maps are mutually inverse;
an address has a last-seen record and an online record exactly when it is
indexed; a raised online flag implies a non-null last-seen. -/
def BookInv (b : Addressbook) : Prop :=
  (∀ n a, dictGet n b.nameAddress = some a ↔ dictGet a b.addressName = some n) ∧
  (∀ a, (dictGet a b.addressName).isSome ↔ (dictGet a b.lastSeen).isSome) ∧
  (∀ a, (dictGet a b.addressName).isSome ↔ (dictGet a b.onlineMap).isSome) ∧
  (∀ a, dictGet a b.onlineMap = some true → ∃ t, dictGet a b.lastSeen = some (some t))

/-- A valid 52-character base32 address used by concrete witnesses. -/
def cAddr52 : String := "aaaaaaaaaaaaaaaaaaaaaaaaaaaaaaaaaaaaaaaaaaaaaaaaaaaa"

/-! ## Per-peer sender (`MessageSender`, `KoteCore.sender`)

The retry loop of `KoteCore.sender` is driven by the environment: each of
the up-to-`SEND_RETRIES` iterations either times out, reads an empty
response, or reads response bytes that do or do not parse.  `runRetryLoop`
mirrors the loop body exactly: a timeout or an empty read moves on to the
next attempt, while any response bytes `break` the loop — with
`delivered = True` iff they parsed. -/

def SEND_RETRIES : Nat := 11

/-- `collections.deque(maxlen=n).append`: append right, evict oldest left
entries beyond the bound. -/
def dequeAppend {α : Type} (maxlen : Nat) (q : List α) (x : α) : List α :=
  (q ++ [x]).drop ((q ++ [x]).length - maxlen)

/-- The three bounded offline stashes of a `MessageSender`, keyed by code:
PRIVATE (1000), PUBLIC (100), AUTHORIZATION (10). -/
structure Stash where
  priv : List Message := []
  pub : List Message := []
  auth : List Message := []
deriving DecidableEq

/-- `MessageSender.stash`: append to the deque for the message's code;
messages with other codes are dropped. -/
def Stash.add (s : Stash) (m : Message) : Stash :=
  if m.code = Message.PRIVATE then { s with priv := dequeAppend 1000 s.priv m }
  else if m.code = Message.PUBLIC then { s with pub := dequeAppend 100 s.pub m }
  else if m.code = Message.AUTHORIZATION then { s with auth := dequeAppend 10 s.auth m }
  else s

/-- One delivery attempt as observed by the retry loop:
`asyncio.TimeoutError`, an empty response read, or response bytes that do
(`parses = true`) or do not (`parses = false`) parse. -/
inductive Attempt where
  | timeout
  | empty
  | response (parses : Bool)
deriving DecidableEq

/-- Whether the attempt produced response bytes. -/
def Attempt.hasData : Attempt → Bool
  | .response _ => true
  | _ => false

/-- The value of `delivered` after the `for x in range(SEND_RETRIES)` loop,
given the (at most `SEND_RETRIES`) attempt outcomes: a timeout (`pass`) or
an empty read (sleep and retry) continues; response bytes `break` with
`delivered` true iff they parse; exhausting the list leaves
`delivered = False`. -/
def runRetryLoop : List Attempt → Bool
  | [] => false
  | .timeout :: rest => runRetryLoop rest
  | .empty :: rest => runRetryLoop rest
  | .response p :: _ => p

/-- The tail of `KoteCore.sender` for one queue message: run the retry loop
on the first `SEND_RETRIES` environment outcomes; stash the message iff not
delivered. -/
def senderProcess (st : Stash) (msg : Message) (attempts : List Attempt) : Bool × Stash :=
  let delivered := runRetryLoop (attempts.take SEND_RETRIES)
  (delivered, if delivered then st else st.add msg)

/-- Spec-side reading of the loop: the first attempt that yields response
bytes, if any, together with whether those bytes parsed. -/
def firstResponse : List Attempt → Option Bool
  | [] => none
  | .response p :: _ => some p
  | _ :: rest => firstResponse rest

/-! ## Engine core (`kote/core.py`)

`CoreState` collects the engine state the claims depend on: the address
book, the per-peer sender map, the UUID dedup ring (a `deque(maxlen=50)` of
the uuid bytes), the `ignore_unauthorized` flag and the local destination.
Hook invocations and queue traffic are recorded as `Event`s. -/

/-- The per-peer sender state: its unbounded queue and its offline stash. -/
structure SenderState where
  queue : List Message := []
  stash : Stash := {}
deriving DecidableEq

/-- `MessageSender.send_stash`: drain every stash deque, FIFO, in the dict
order PRIVATE, PUBLIC, AUTHORIZATION, re-queuing each message. -/
def SenderState.send_stash (s : SenderState) : SenderState :=
  { queue := s.queue ++ s.stash.priv ++ s.stash.pub ++ s.stash.auth, stash := {} }

/-- Observable actions of the handlers: event hooks firing, a stashed
message being re-queued, and the address-book online transition. -/
inductive Event where
  | contactOnline (name : String)
  | requeued (m : Message)
  | wentOnline (address : String)
  | onPing (m : Message)
  | onAuthorization (m : Message)
  | onPrivate (m : Message)
  | onPublic (m : Message)
  | onUnauthorized (m : Message)
deriving DecidableEq

def Event.isContactOnline : Event → Bool
  | .contactOnline _ => true
  | _ => false

structure CoreState where
  book : Addressbook := {}
  senders : List (String × SenderState) := []
  uuidLog : List (List Nat) := []
  ignoreUnauthorized : Bool := false
  ownDest : String := ""
deriving DecidableEq

/-- Python truthiness of an optional string (`None` and `""` are falsy). -/
def strTruthy : Option String → Bool
  | some s => decide (s ≠ "")
  | none => false

/-- `KoteCore._dest_online`: when the destination has a (truthy) nickname
and its entry is not online, fire `on_contact_online`, replay the sender
stashes, then `set_online`; when already online, just `set_online`; unknown
destinations are ignored.  `none` models the `KeyError` raised when a known
contact has no sender (unreachable in reachable engine states). -/
def destOnline (st : CoreState) (dest : String) (now : Nat) : Option (CoreState × List Event) :=
  match st.book.get_name dest with
  | none => some (st, [])
  | some name =>
    if name = "" then some (st, [])
    else if st.book.is_online dest then
      some ({ st with book := st.book.set_online dest now }, [Event.wentOnline dest])
    else
      match dictGet dest st.senders with
      | none => none
      | some s =>
        some ({ st with book := st.book.set_online dest now, senders := dictSet dest s.send_stash st.senders },
          Event.contactOnline name :: ((s.stash.priv ++ s.stash.pub ++ s.stash.auth).map Event.requeued ++ [Event.wentOnline dest]))

/-- Concrete state used by witnesses: one contact "bob" at `cAddr52`,
currently offline, with one stashed PRIVATE message. -/
def cBook : Addressbook :=
  { nameAddress := [("bob", cAddr52)], addressName := [(cAddr52, "bob")],
    lastSeen := [(cAddr52, none)], onlineMap := [(cAddr52, false)] }

def cMsg1 : Message :=
  { code := Message.PRIVATE, uuid := List.replicate 16 1, content := [104], destination := cAddr52 }

def cSen : SenderState := { queue := [], stash := { priv := [cMsg1] } }

def cSt : CoreState := { book := cBook, senders := [(cAddr52, cSen)] }

/-! ## Inbound handler (`KoteCore._receive_message`)

The transport supplies the remote destination `src` and either a read
timeout or the raw message bytes.  The handler writes at most one reply and
dispatches at most one message hook; `none` models the `KeyError` of
`_dest_online` on a contact without a sender (unreachable in reachable
engine states). -/

inductive Reply where
  | ok
  | unauthorized
deriving DecidableEq

inductive HandlerInput where
  | readTimeout
  | data (bytes : List Nat)
deriving DecidableEq

/-- `KoteCore._receive_message`: unauthorized-ignore gate, read, parse,
UUID dedup check (reply OK, no dispatch), ring append, then dispatch by
code — PING/AUTHORIZATION always OK; PRIVATE/PUBLIC/UNAUTHORIZED only for a
known (truthy) nickname, else reply UNAUTHORIZED; finally `_dest_online`. -/
def receiveMessage (st : CoreState) (src : String) (input : HandlerInput) (now : Nat) :
    Option (CoreState × Option Reply × List Event) :=
  if strTruthy (st.book.get_name src) = false ∧ st.ignoreUnauthorized = true then
    some (st, none, [])
  else
    match input with
    | .readTimeout => some (st, none, [])
    | .data bytes =>
      match Message.parse bytes src with
      | none => some (st, none, [])
      | some req0 =>
        if req0.uuid ∈ st.uuidLog then
          some (st, some Reply.ok, [])
        else
          if req0.code = Message.PING ∨ req0.code = Message.AUTHORIZATION then
            match destOnline { st with uuidLog := dequeAppend 50 st.uuidLog req0.uuid } req0.destination now with
            | none => none
            | some (st2, ev2) =>
              some (st2, some Reply.ok,
                (if req0.code = Message.PING then [Event.onPing { req0 with name := st.book.get_name src }]
                 else [Event.onAuthorization { req0 with name := st.book.get_name src }]) ++ ev2)
          else if strTruthy (st.book.get_name src) then
            match destOnline { st with uuidLog := dequeAppend 50 st.uuidLog req0.uuid } req0.destination now with
            | none => none
            | some (st2, ev2) =>
              some (st2, some Reply.ok,
                (if req0.code = Message.PRIVATE then [Event.onPrivate { req0 with name := st.book.get_name src }]
                 else if req0.code = Message.PUBLIC then [Event.onPublic { req0 with name := st.book.get_name src }]
                 else if req0.code = Message.UNAUTHORIZED then [Event.onUnauthorized { req0 with name := st.book.get_name src }]
                 else []) ++ ev2)
          else
            some ({ st with uuidLog := dequeAppend 50 st.uuidLog req0.uuid }, some Reply.unauthorized, [])

/-- Sequential processing of several inbound connections, collecting all
events. -/
def receiveRun (st : CoreState) (inputs : List (String × HandlerInput)) (now : Nat) :
    Option (CoreState × List Event) :=
  match inputs with
  | [] => some (st, [])
  | (src, inp) :: rest =>
    match receiveMessage st src inp now with
    | none => none
    | some (st1, _, evs) =>
      match receiveRun st1 rest now with
      | none => none
      | some (st2, evs2) => some (st2, evs ++ evs2)

/-- Whether an event is a message-hook dispatch carrying uuid `u`. -/
def Event.isMsgHookFor (u : List Nat) : Event → Bool
  | .onPing m => decide (m.uuid = u)
  | .onAuthorization m => decide (m.uuid = u)
  | .onPrivate m => decide (m.uuid = u)
  | .onPublic m => decide (m.uuid = u)
  | .onUnauthorized m => decide (m.uuid = u)
  | _ => false

def uuidBytes (k : Nat) : List Nat := k :: List.replicate 15 0

/-- The wire bytes of a PRIVATE message with empty content and uuid `k`. -/
def wirePriv (k : Nat) : List Nat := Message.PRIVATE :: uuidBytes k

def mPriv9 : Message := { code := Message.PRIVATE, uuid := uuidBytes 9, content := [], destination := cAddr52 }

/-- A state in which uuid 9 is already in the dedup ring. -/
def dupSt : CoreState := { book := cBook, senders := [(cAddr52, {})], uuidLog := [uuidBytes 9] }

/-- The run refuting the literal claim: 51 distinct UUIDs evict uuid 0 from
the 50-slot ring, after which the repeated uuid 0 is dispatched a second
time. -/
def dupRunState : CoreState := { book := cBook, senders := [(cAddr52, {})] }

def dupRunInputs : List (String × HandlerInput) :=
  ((List.range 51).map fun k => (cAddr52, HandlerInput.data (wirePriv k))) ++
    [(cAddr52, HandlerInput.data (wirePriv 0))]

/-! ## Contact management and the public send API (`KoteCore`) -/

/-- The code points of a Python string. -/
def strCodepoints (s : String) : List Nat := s.data.map Char.toNat

/-- `KoteCore.add_contact`: reject the local destination, insert into the
address book (errors reported as `false`), create a fresh per-peer sender
and enqueue an AUTHORIZATION message whose content is `your_name` (the
freshly generated uuid4 is an explicit argument). -/
def addContact (st : CoreState) (name address yourName : String) (freshUuid : List Nat) :
    Bool × CoreState :=
  if address = st.ownDest then (false, st)
  else
    match st.book.setItem name address with
    | .error _ => (false, st)
    | .ok book2 =>
      (true, { st with book := book2, senders := dictSet address { queue := [{ code := Message.AUTHORIZATION, uuid := freshUuid, content := strCodepoints yourName, destination := address, name := none }], stash := {} } st.senders })

/-- `KoteCore.send_message`: enqueue to the destination sender when the
address book marks it online, otherwise stash directly; `none` models the
`KeyError` raised by `self.senders[msg.destination]` when no sender is
registered. -/
def sendMessage (st : CoreState) (msg : Message) : Option CoreState :=
  if st.book.is_online msg.destination then
    match dictGet msg.destination st.senders with
    | none => none
    | some s => some { st with senders := dictSet msg.destination { s with queue := s.queue ++ [msg] } st.senders }
  else
    match dictGet msg.destination st.senders with
    | none => none
    | some s => some { st with senders := dictSet msg.destination { s with stash := s.stash.add msg } st.senders }

/-! ## Pinger peer selection (`KoteCore.pinger`) -/

/-- The pinger cycle counter starts at 0. -/
def pingerInitX : Nat := 0

/-- One cycle of the pinger's peer-selection policy: uptime below 1800 s or
an empty online set selects all contacts (counter unchanged); otherwise a
counter at 6 selects all contacts and resets; otherwise only online peers
are selected and the counter is incremented. -/
def pingerSelect (uptime : Nat) (b : Addressbook) (x : Nat) : List String × Nat :=
  if uptime < 1800 ∨ b.online_peers = [] then (b.values, x)
  else if x = 6 then (b.values, 0)
  else (b.online_peers, x + 1)

theorem dictGet_set {κ β : Type} [DecidableEq κ] (k k' : κ) (v : β) (l : List (κ × β)) :
    dictGet k (dictSet k' v l) = if k = k' then some v else dictGet k l := by
  induction l with
  | nil =>
    by_cases h : k = k'
    · subst h; simp [dictGet, dictSet]
    · have h' : ¬ k' = k := fun hh => h hh.symm
      simp [dictGet, dictSet, h, h']
  | cons p rest ih =>
    obtain ⟨a, b⟩ := p
    by_cases ha : a = k' <;> by_cases hk : k = k'
    · subst ha; subst hk; simp [dictGet, dictSet]
    · subst ha
      have h1 : ¬ a = k := fun hh => hk hh.symm
      simp [dictGet, dictSet, hk, h1]
    · subst hk
      have h1 : ¬ a = k := ha
      simp [dictGet, dictSet, ha, h1, ih]
    · simp [dictGet, dictSet, ha, hk, ih]

theorem dictGet_del {κ β : Type} [DecidableEq κ] (k k' : κ) (l : List (κ × β)) :
    dictGet k (dictDel k' l) = if k = k' then none else dictGet k l := by
  induction l with
  | nil => simp [dictGet, dictDel]
  | cons p rest ih =>
    obtain ⟨a, b⟩ := p
    by_cases ha : a = k' <;> by_cases hk : k = k'
    · subst ha; subst hk; simp [dictGet, dictDel, ih]
    · subst ha
      have h1 : ¬ a = k := fun hh => hk hh.symm
      simp [dictGet, dictDel, hk, h1, ih]
    · subst hk
      have h1 : ¬ a = k := ha
      simp [dictGet, dictDel, ha, h1, ih]
    · simp [dictGet, dictDel, ha, hk, ih]

theorem utf8EncodeChar_one (b0 : Nat) (h : b0 < 0x80) : utf8EncodeChar b0 = [b0] := by
  unfold utf8EncodeChar
  rw [if_pos h]

theorem utf8EncodeChar_two (b0 b1 : Nat) (h0 : 0xC2 ≤ b0) (h0' : b0 < 0xE0)
    (h1 : 0x80 ≤ b1) (h1' : b1 < 0xC0) :
    utf8EncodeChar ((b0 - 0xC0) * 0x40 + (b1 - 0x80)) = [b0, b1] := by
  unfold utf8EncodeChar
  rw [if_neg (by omega), if_pos (by omega)]
  simp only [List.cons.injEq, and_true]
  exact ⟨by omega, by omega⟩

theorem utf8EncodeChar_three (b0 b1 b2 : Nat) (h0 : 0xE0 ≤ b0) (h0' : b0 < 0xF0)
    (h1 : 0x80 ≤ b1) (h1' : b1 < 0xC0) (hmin : b0 = 0xE0 → 0xA0 ≤ b1)
    (h2 : 0x80 ≤ b2) (h2' : b2 < 0xC0) :
    utf8EncodeChar ((b0 - 0xE0) * 0x1000 + (b1 - 0x80) * 0x40 + (b2 - 0x80)) = [b0, b1, b2] := by
  have hcp : 0x800 ≤ (b0 - 0xE0) * 0x1000 + (b1 - 0x80) * 0x40 + (b2 - 0x80) := by
    by_cases he : b0 = 0xE0
    · have := hmin he; omega
    · omega
  unfold utf8EncodeChar
  rw [if_neg (by omega), if_neg (by omega), if_pos (by omega)]
  simp only [List.cons.injEq, and_true]
  exact ⟨by omega, by omega, by omega⟩

theorem utf8EncodeChar_four (b0 b1 b2 b3 : Nat) (h0 : 0xF0 ≤ b0) (h0' : b0 < 0xF5)
    (h1 : 0x80 ≤ b1) (h1' : b1 < 0xC0) (hmin : b0 = 0xF0 → 0x90 ≤ b1)
    (h2 : 0x80 ≤ b2) (h2' : b2 < 0xC0) (h3 : 0x80 ≤ b3) (h3' : b3 < 0xC0) :
    utf8EncodeChar ((b0 - 0xF0) * 0x40000 + (b1 - 0x80) * 0x1000 + (b2 - 0x80) * 0x40 + (b3 - 0x80))
      = [b0, b1, b2, b3] := by
  have hcp : 0x10000 ≤ (b0 - 0xF0) * 0x40000 + (b1 - 0x80) * 0x1000 + (b2 - 0x80) * 0x40 + (b3 - 0x80) := by
    by_cases he : b0 = 0xF0
    · have := hmin he; omega
    · omega
  unfold utf8EncodeChar
  rw [if_neg (by omega), if_neg (by omega), if_neg (by omega)]
  simp only [List.cons.injEq, and_true]
  exact ⟨by omega, by omega, by omega, by omega⟩

theorem utf8Encode_decodeF : ∀ (fuel : Nat) (bs cs : List Nat),
    utf8DecodeF fuel bs = some cs → utf8Encode cs = bs := by
  intro fuel
  induction fuel with
  | zero =>
    intro bs cs h
    cases bs with
    | nil =>
      rw [show utf8DecodeF 0 [] = some [] from rfl] at h
      cases h
      rfl
    | cons b0 rest =>
      rw [show utf8DecodeF 0 (b0 :: rest) = none from rfl] at h
      cases h
  | succ fuel ih =>
    intro bs cs h
    cases bs with
    | nil =>
      rw [show utf8DecodeF (fuel + 1) [] = some [] from rfl] at h
      cases h
      rfl
    | cons b0 rest =>
      rw [utf8DecodeF.eq_def] at h
      simp only [] at h
      by_cases h1 : b0 < 0x80
      · rw [if_pos h1] at h
        cases hd : utf8DecodeF fuel rest with
        | none => rw [hd] at h; cases h
        | some cs' =>
          rw [hd] at h
          simp only [Option.map_some', Option.some.injEq] at h
          subst h
          simp only [utf8Encode, utf8EncodeChar_one b0 h1]
          simp [ih rest cs' hd]
      · rw [if_neg h1] at h
        by_cases h2 : b0 < 0xC2
        · rw [if_pos h2] at h; cases h
        · rw [if_neg h2] at h
          by_cases h3 : b0 < 0xE0
          · rw [if_pos h3] at h
            cases rest with
            | nil => simp at h
            | cons b1 rest2 =>
              simp only [] at h
              by_cases hg : 0x80 ≤ b1 ∧ b1 < 0xC0
              · rw [if_pos hg] at h
                cases hd : utf8DecodeF fuel rest2 with
                | none => rw [hd] at h; cases h
                | some cs' =>
                  rw [hd] at h
                  simp only [Option.map_some', Option.some.injEq] at h
                  subst h
                  simp only [utf8Encode]
                  rw [utf8EncodeChar_two b0 b1 (by omega) (by omega) hg.1 hg.2]
                  simp [ih rest2 cs' hd]
              · rw [if_neg hg] at h; cases h
          · rw [if_neg h3] at h
            by_cases h4 : b0 < 0xF0
            · rw [if_pos h4] at h
              cases rest with
              | nil => simp at h
              | cons b1 r =>
                cases r with
                | nil => simp at h
                | cons b2 rest2 =>
                  simp only [] at h
                  by_cases hg : (0x80 ≤ b1 ∧ b1 < 0xC0) ∧ (b0 = 0xE0 → 0xA0 ≤ b1)
                      ∧ (b0 = 0xED → b1 < 0xA0) ∧ (0x80 ≤ b2 ∧ b2 < 0xC0)
                  · rw [if_pos hg] at h
                    cases hd : utf8DecodeF fuel rest2 with
                    | none => rw [hd] at h; cases h
                    | some cs' =>
                      rw [hd] at h
                      simp only [Option.map_some', Option.some.injEq] at h
                      subst h
                      simp only [utf8Encode]
                      rw [utf8EncodeChar_three b0 b1 b2 (by omega) (by omega)
                        hg.1.1 hg.1.2 hg.2.1 hg.2.2.2.1 hg.2.2.2.2]
                      simp [ih rest2 cs' hd]
                  · rw [if_neg hg] at h; cases h
            · rw [if_neg h4] at h
              by_cases h5 : b0 < 0xF5
              · rw [if_pos h5] at h
                cases rest with
                | nil => simp at h
                | cons b1 r =>
                  cases r with
                  | nil => simp at h
                  | cons b2 r2 =>
                    cases r2 with
                    | nil => simp at h
                    | cons b3 rest2 =>
                      simp only [] at h
                      by_cases hg : (0x80 ≤ b1 ∧ b1 < 0xC0) ∧ (b0 = 0xF0 → 0x90 ≤ b1)
                          ∧ (b0 = 0xF4 → b1 < 0x90) ∧ (0x80 ≤ b2 ∧ b2 < 0xC0)
                          ∧ (0x80 ≤ b3 ∧ b3 < 0xC0)
                      · rw [if_pos hg] at h
                        cases hd : utf8DecodeF fuel rest2 with
                        | none => rw [hd] at h; cases h
                        | some cs' =>
                          rw [hd] at h
                          simp only [Option.map_some', Option.some.injEq] at h
                          subst h
                          simp only [utf8Encode]
                          rw [utf8EncodeChar_four b0 b1 b2 b3 (by omega) (by omega)
                            hg.1.1 hg.1.2 hg.2.1 hg.2.2.2.1.1 hg.2.2.2.1.2
                            hg.2.2.2.2.1 hg.2.2.2.2.2]
                          simp [ih rest2 cs' hd]
                      · rw [if_neg hg] at h; cases h
              · rw [if_neg h5] at h; cases h

/-- Strict UTF-8 decoding is a right inverse of encoding: re-encoding a
successfully decoded byte string yields the bytes back. -/
theorem utf8Encode_decode (bs cs : List Nat) (h : utf8Decode bs = some cs) :
    utf8Encode cs = bs :=
  utf8Encode_decodeF bs.length bs cs h

theorem Message.parse_elim (data : List Nat) (dest : String) (m : Message)
    (h : Message.parse data dest = some m) :
    ∃ b rest cs, data = b :: rest ∧ 17 ≤ data.length ∧ data.length ≤ MAX_MESSAGE_LENGTH ∧
      Message.valid_code b = true ∧ utf8Decode (rest.drop 16) = some cs ∧
      m = { code := b, uuid := rest.take 16, content := cs, destination := dest } := by
  unfold Message.parse at h
  by_cases hl : data.length < 17 ∨ data.length > MAX_MESSAGE_LENGTH
  · rw [if_pos hl] at h; cases h
  · rw [if_neg hl] at h
    push_neg at hl
    cases data with
    | nil => cases h
    | cons b rest =>
      simp only [] at h
      by_cases hc : Message.valid_code b
      · rw [if_pos hc] at h
        cases hd : utf8Decode (rest.drop 16) with
        | none => rw [hd] at h; cases h
        | some cs =>
          rw [hd] at h
          simp only [Option.some.injEq] at h
          exact ⟨b, rest, cs, rfl, hl.1, hl.2, hc, hd, h.symm⟩
      · rw [if_neg hc] at h; cases h

/-- C5: for every byte string that `Message.parse` accepts, re-encoding the
parsed message with `Message.__bytes__` yields the input bytes back
exactly: `encode(decode(b)) = b`. -/
theorem C5_parse_roundtrip (data : List Nat) (dest : String) (m : Message)
    (h : Message.parse data dest = some m) : m.toBytes = data := by
  obtain ⟨b, rest, cs, hdata, _, _, _, hd, hm⟩ := Message.parse_elim data dest m h
  subst hdata
  subst hm
  simp only [Message.toBytes]
  rw [utf8Encode_decode _ cs hd, List.take_append_drop]

/-- C5 witness: a concrete accepted byte string round-trips. -/
theorem C5_witness :
    Message.toBytes { code := Message.OK, uuid := List.replicate 16 0, content := [65], destination := "peer" } = Message.OK :: (List.replicate 16 0 ++ [65]) :=
  C5_parse_roundtrip (Message.OK :: (List.replicate 16 0 ++ [65])) "peer"
    { code := Message.OK, uuid := List.replicate 16 0, content := [65], destination := "peer" }
    (by decide)

set_option maxRecDepth 16384 in
/-- C4 counterexample: encoding is total and does NOT enforce the claimed
upper bound of 1024 bytes.  A message with a valid code, a 16-byte UUID and
a plain-ASCII content of 1008 characters encodes to 1025 wire bytes. -/
theorem C4_counterexample :
    Message.valid_code Message.PRIVATE = true ∧
    (List.replicate (16 : Nat) (0 : Nat)).length = 16 ∧
    (List.replicate (1008 : Nat) (97 : Nat)).all (fun c => decide (c < 0x80)) = true ∧
    (Message.toBytes { code := Message.PRIVATE, uuid := List.replicate 16 0, content := List.replicate 1008 97, destination := "d" }).length = 1025 := by
  refine ⟨by decide, by decide, by decide, by decide⟩

/-- C4 (amended): encoding is total — one code byte, the 16 UUID bytes,
then the UTF-8 bytes of the content — and the wire length is exactly
`17 + |utf8(content)|`, hence always at least 17; it is at most 1024 iff
the UTF-8 content is at most 1007 bytes (the encoder itself never enforces
the upper bound). -/
theorem C4_toBytes_length (m : Message) (hu : m.uuid.length = 16) :
    m.toBytes = m.code :: (m.uuid ++ utf8Encode m.content) ∧
    m.toBytes.length = 17 + (utf8Encode m.content).length ∧
    17 ≤ m.toBytes.length ∧
    (m.toBytes.length ≤ MAX_MESSAGE_LENGTH ↔ (utf8Encode m.content).length ≤ 1007) := by
  have hlen : m.toBytes.length = 17 + (utf8Encode m.content).length := by
    simp [Message.toBytes, List.length_append, hu]
    omega
  refine ⟨rfl, hlen, by omega, by rw [hlen]; unfold MAX_MESSAGE_LENGTH; omega⟩

/-- C4 witness: the amended length law at a concrete message. -/
theorem C4_witness :
    (Message.toBytes { code := Message.OK, uuid := List.replicate 16 0, content := [104, 105], destination := "" }).length = 17 + (utf8Encode [104, 105]).length :=
  (C4_toBytes_length { code := Message.OK, uuid := List.replicate 16 0, content := [104, 105], destination := "" } (by decide)).2.1

theorem bookInv_empty : BookInv ({} : Addressbook) := by
  refine ⟨fun n a => ?_, fun a => ?_, fun a => ?_, fun a => ?_⟩ <;> simp [dictGet]

theorem bookInv_apply (b : Addressbook) (op : BookOp) (hinv : BookInv b) :
    BookInv (BookOp.apply b op) := by
  obtain ⟨hiv, hls, hom, hol⟩ := hinv
  cases op with
  | insert n a =>
    simp only [BookOp.apply]
    unfold Addressbook.setItem
    by_cases hdup : (dictGet n b.nameAddress).isSome ∨ (dictGet a b.addressName).isSome
    · rw [if_pos hdup]; exact ⟨hiv, hls, hom, hol⟩
    · rw [if_neg hdup]
      push_neg at hdup
      by_cases hvalid : Addressbook.is_valid_address a = true
      · rw [if_neg (by simp [hvalid])]
        have hn : dictGet n b.nameAddress = none := by
          cases h2 : dictGet n b.nameAddress with
          | none => rfl
          | some v => exact absurd (by simp [h2]) hdup.1
        have ha : dictGet a b.addressName = none := by
          cases h2 : dictGet a b.addressName with
          | none => rfl
          | some v => exact absurd (by simp [h2]) hdup.2
        refine ⟨?_, ?_, ?_, ?_⟩
        · intro n2 a2
          simp only []
          rw [dictGet_set, dictGet_set]
          by_cases hn2 : n2 = n <;> by_cases ha2 : a2 = a
          · subst hn2; subst ha2; simp
          · subst hn2
            rw [if_pos rfl, if_neg ha2]
            simp only [Option.some.injEq]
            constructor
            · intro hh; exact absurd hh.symm ha2
            · intro hh
              have h3 := (hiv n2 a2).mpr hh
              rw [hn] at h3; cases h3
          · subst ha2
            rw [if_neg hn2, if_pos rfl]
            simp only [Option.some.injEq]
            constructor
            · intro hh
              have h3 := (hiv n2 a2).mp hh
              rw [ha] at h3; cases h3
            · intro hh; exact absurd hh.symm hn2
          · rw [if_neg hn2, if_neg ha2]; exact hiv n2 a2
        · intro a2
          simp only []
          rw [dictGet_set, dictGet_set]
          by_cases ha2 : a2 = a
          · subst ha2; simp
          · rw [if_neg ha2, if_neg ha2]; exact hls a2
        · intro a2
          simp only []
          rw [dictGet_set, dictGet_set]
          by_cases ha2 : a2 = a
          · subst ha2; simp
          · rw [if_neg ha2, if_neg ha2]; exact hom a2
        · intro a2
          simp only []
          rw [dictGet_set, dictGet_set]
          by_cases ha2 : a2 = a
          · subst ha2
            rw [if_pos rfl, if_pos rfl]
            intro hh
            exact absurd hh (by simp)
          · rw [if_neg ha2, if_neg ha2]; exact hol a2
      · rw [if_pos (by simpa using hvalid)]; exact ⟨hiv, hls, hom, hol⟩
  | remove n =>
    simp only [BookOp.apply]
    cases haddr : dictGet n b.nameAddress with
    | none => simp only [Addressbook.delItem, haddr, Option.getD]; exact ⟨hiv, hls, hom, hol⟩
    | some addr =>
      simp only [Addressbook.delItem, haddr, Option.getD]
      have hAN : dictGet addr b.addressName = some n := (hiv n addr).mp haddr
      refine ⟨?_, ?_, ?_, ?_⟩
      · intro n2 a2
        simp only []
        rw [dictGet_del, dictGet_del]
        by_cases hn2 : n2 = n <;> by_cases ha2 : a2 = addr
        · rw [if_pos hn2, if_pos ha2]; simp
        · rw [if_pos hn2, if_neg ha2]
          subst hn2
          simp only [false_iff, (by simp : (none : Option String) = some a2 ↔ False)]
          intro hh
          have h3 := (hiv n2 a2).mpr hh
          rw [haddr] at h3
          cases h3
          exact ha2 rfl
        · rw [if_neg hn2, if_pos ha2]
          subst ha2
          simp only [iff_false, (by simp : (none : Option String) = some n2 ↔ False)]
          intro hh
          have h3 := (hiv n2 a2).mp hh
          rw [hAN] at h3
          cases h3
          exact hn2 rfl
        · rw [if_neg hn2, if_neg ha2]; exact hiv n2 a2
      · intro a2
        simp only []
        rw [dictGet_del, dictGet_del]
        by_cases ha2 : a2 = addr
        · rw [if_pos ha2, if_pos ha2]; simp
        · rw [if_neg ha2, if_neg ha2]; exact hls a2
      · intro a2
        simp only []
        rw [dictGet_del, dictGet_del]
        by_cases ha2 : a2 = addr
        · rw [if_pos ha2, if_pos ha2]; simp
        · rw [if_neg ha2, if_neg ha2]; exact hom a2
      · intro a2
        simp only []
        rw [dictGet_del, dictGet_del]
        by_cases ha2 : a2 = addr
        · rw [if_pos ha2]
          intro hh; cases hh
        · rw [if_neg ha2, if_neg ha2]; exact hol a2
  | setOnline a t =>
    simp only [BookOp.apply]
    unfold Addressbook.set_online
    by_cases hpres : (dictGet a b.lastSeen).isSome
    · rw [if_pos hpres]
      have hANs : (dictGet a b.addressName).isSome := (hls a).mpr hpres
      have homs : (dictGet a b.onlineMap).isSome := (hom a).mp hANs
      rw [if_pos (show (dictGet a ({ b with lastSeen := dictSet a (some t) b.lastSeen } : Addressbook).onlineMap).isSome from homs)]
      refine ⟨hiv, ?_, ?_, ?_⟩
      · intro a2
        simp only []
        rw [dictGet_set]
        by_cases ha2 : a2 = a
        · subst ha2; simp [hANs]
        · rw [if_neg ha2]; exact hls a2
      · intro a2
        simp only []
        rw [dictGet_set]
        by_cases ha2 : a2 = a
        · subst ha2; simp [hANs]
        · rw [if_neg ha2]; exact hom a2
      · intro a2
        simp only []
        rw [dictGet_set, dictGet_set]
        by_cases ha2 : a2 = a
        · rw [if_pos ha2, if_pos ha2]
          intro _
          exact ⟨t, rfl⟩
        · rw [if_neg ha2, if_neg ha2]; exact hol a2
    · rw [if_neg hpres]
      have hANn : ¬ (dictGet a b.addressName).isSome := fun hh => hpres ((hls a).mp hh)
      have homn : ¬ (dictGet a b.onlineMap).isSome := fun hh => hANn ((hom a).mpr hh)
      rw [if_neg homn]
      exact ⟨hiv, hls, hom, hol⟩
  | setOffline a =>
    simp only [BookOp.apply]
    unfold Addressbook.set_offline
    by_cases hpres : (dictGet a b.onlineMap).isSome
    · rw [if_pos hpres]
      have hANs : (dictGet a b.addressName).isSome := (hom a).mpr hpres
      refine ⟨hiv, hls, ?_, ?_⟩
      · intro a2
        simp only []
        rw [dictGet_set]
        by_cases ha2 : a2 = a
        · subst ha2; simp [hANs]
        · rw [if_neg ha2]; exact hom a2
      · intro a2
        simp only []
        rw [dictGet_set]
        by_cases ha2 : a2 = a
        · rw [if_pos ha2]
          intro hh
          exact absurd hh (by simp)
        · rw [if_neg ha2]; exact hol a2
    · rw [if_neg hpres]; exact ⟨hiv, hls, hom, hol⟩

theorem bookInv_foldl (ops : List BookOp) :
    ∀ b, BookInv b → BookInv (ops.foldl BookOp.apply b) := by
  induction ops with
  | nil => intro b h; exact h
  | cons op rest ih => intro b h; exact ih _ (bookInv_apply b op h)

/-- C7: after any sequence of address-book operations starting from the
empty book, the state invariant holds: the name→address and address→name
maps are mutually inverse, an address has last-seen and online records
exactly when it is indexed, and a raised online flag implies a non-null
last-seen timestamp. -/
theorem C7_addressbook_invariant (ops : List BookOp) : BookInv (runBookOps ops) :=
  bookInv_foldl ops {} bookInv_empty

/-- C7 witness: the invariant applied to a concrete operation sequence. -/
theorem C7_witness :
    dictGet cAddr52 (runBookOps [BookOp.insert "bob" cAddr52, BookOp.setOnline cAddr52 5]).addressName = some "bob" :=
  ((C7_addressbook_invariant [BookOp.insert "bob" cAddr52, BookOp.setOnline cAddr52 5]).1 "bob" cAddr52).mp (by decide)

theorem runRetryLoop_eq_firstResponse (l : List Attempt) :
    runRetryLoop l = true ↔ firstResponse l = some true := by
  induction l with
  | nil => simp [runRetryLoop, firstResponse]
  | cons a rest ih =>
    cases a with
    | timeout => simpa [runRetryLoop, firstResponse] using ih
    | empty => simpa [runRetryLoop, firstResponse] using ih
    | response p => simp [runRetryLoop, firstResponse]

theorem runRetryLoop_take_append (n : Nat) (pre post : List Attempt) (p : Bool)
    (hpre : ∀ x ∈ pre, x.hasData = false) (hn : pre.length < n) :
    runRetryLoop ((pre ++ Attempt.response p :: post).take n) = p := by
  induction pre generalizing n with
  | nil =>
    cases n with
    | zero => omega
    | succ n => simp [runRetryLoop]
  | cons a rest ih =>
    cases n with
    | zero => omega
    | succ n =>
      have ha := hpre a (by simp)
      cases a with
      | timeout =>
        simp only [List.cons_append, List.take_succ_cons, runRetryLoop]
        exact ih n (fun x hx => hpre x (List.mem_cons_of_mem _ hx)) (by simp at hn; omega)
      | empty =>
        simp only [List.cons_append, List.take_succ_cons, runRetryLoop]
        exact ih n (fun x hx => hpre x (List.mem_cons_of_mem _ hx)) (by simp at hn; omega)
      | response q => simp [Attempt.hasData] at ha

/-- C1 counterexample: one attempt yields response bytes that fail to
parse; the loop stops retrying, but the message is NOT treated as
delivered, and it ends up in the PRIVATE stash — refuting both "treated as
a successful send ... not stashed" and "stashed exactly when no attempt
produced response bytes". -/
theorem C1_counterexample :
    ((Attempt.response false :: List.replicate 10 Attempt.timeout).take SEND_RETRIES).any Attempt.hasData = true ∧
    (senderProcess {} { code := Message.PRIVATE, uuid := List.replicate 16 0, destination := "d" } (Attempt.response false :: List.replicate 10 Attempt.timeout)).1 = false ∧
    (senderProcess {} { code := Message.PRIVATE, uuid := List.replicate 16 0, destination := "d" } (Attempt.response false :: List.replicate 10 Attempt.timeout)).2.priv = [{ code := Message.PRIVATE, uuid := List.replicate 16 0, destination := "d" }] :=
  ⟨by decide, by decide, by decide⟩

/-- C1 (amended): for every message processed by the retry loop, the
message is marked delivered iff the first attempt that produced response
bytes (within `SEND_RETRIES` attempts) produced bytes that parsed; response
bytes that fail to parse stop the loop (later attempt outcomes are
irrelevant) but leave the message undelivered; after the loop the message
is stashed in the bounded stash for its code exactly when it was not
delivered, and codes other than PRIVATE, PUBLIC, AUTHORIZATION are
discarded instead of stashed. -/
theorem C1_sender_retry_stash (st : Stash) (msg : Message) (attempts : List Attempt)
    (hlen : attempts.length = SEND_RETRIES) :
    ((senderProcess st msg attempts).1 = true ↔ firstResponse attempts = some true) ∧
    ((senderProcess st msg attempts).1 = true → (senderProcess st msg attempts).2 = st) ∧
    ((senderProcess st msg attempts).1 = false → (senderProcess st msg attempts).2 = st.add msg) ∧
    (∀ pre post, (∀ x ∈ pre, Attempt.hasData x = false) → pre.length < SEND_RETRIES →
      senderProcess st msg (pre ++ Attempt.response false :: post) = (false, st.add msg)) ∧
    (msg.code ≠ Message.PRIVATE → msg.code ≠ Message.PUBLIC → msg.code ≠ Message.AUTHORIZATION →
      st.add msg = st) := by
  have htake : attempts.take SEND_RETRIES = attempts := by
    rw [← hlen]
    exact List.take_length attempts
  refine ⟨?_, ?_, ?_, ?_, ?_⟩
  · unfold senderProcess
    simp only [htake]
    exact runRetryLoop_eq_firstResponse attempts
  · intro h
    unfold senderProcess at h ⊢
    simp only [] at h ⊢
    rw [h]
    simp
  · intro h
    unfold senderProcess at h ⊢
    simp only [] at h ⊢
    rw [h]
    simp
  · intro pre post hpre hlt
    unfold senderProcess
    rw [runRetryLoop_take_append SEND_RETRIES pre post false hpre hlt]
    simp
  · intro h1 h2 h3
    unfold Stash.add
    rw [if_neg h1, if_neg h2, if_neg h3]

/-- C1 witness: eleven timeouts leave the message undelivered and stashed. -/
theorem C1_witness :
    (senderProcess {} { code := Message.PRIVATE, uuid := List.replicate 16 2, destination := "d" } (List.replicate 11 Attempt.timeout)).2 = Stash.add {} { code := Message.PRIVATE, uuid := List.replicate 16 2, destination := "d" } :=
  (C1_sender_retry_stash {} { code := Message.PRIVATE, uuid := List.replicate 16 2, destination := "d" } (List.replicate 11 Attempt.timeout) (by decide)).2.2.1 (by decide)

theorem set_online_addressName (b : Addressbook) (a : String) (t : Nat) :
    (b.set_online a t).addressName = b.addressName := rfl

theorem set_online_nameAddress (b : Addressbook) (a : String) (t : Nat) :
    (b.set_online a t).nameAddress = b.nameAddress := rfl

theorem is_online_set_online (b : Addressbook) (a : String) (t : Nat)
    (h : (dictGet a b.onlineMap).isSome) : (b.set_online a t).is_online a = true := by
  unfold Addressbook.set_online Addressbook.is_online
  simp only []
  rw [if_pos h, dictGet_set]
  simp

theorem filter_contactOnline_requeued (l : List Message) :
    (l.map Event.requeued).filter Event.isContactOnline = [] := by
  induction l with
  | nil => rfl
  | cons m rest ih => simp [Event.isContactOnline, ih]

/-- C2: when `_dest_online` runs for a known contact whose entry is
offline (and whose sender exists), the `on_contact_online(name)` hook fires
exactly once, as the very first event — before any stashed message is
re-sent; every stashed message is then re-queued (all three stashes drained
completely, each FIFO, in the order PRIVATE, PUBLIC, AUTHORIZATION) and the
entry is set online only after the replay. -/
theorem C2_dest_online_replay (st : CoreState) (dest name : String) (s : SenderState) (now : Nat)
    (hname : st.book.get_name dest = some name) (hne : name ≠ "")
    (hoff : st.book.is_online dest = false)
    (hs : dictGet dest st.senders = some s)
    (hpres : (dictGet dest st.book.onlineMap).isSome = true) :
    destOnline st dest now =
      some ({ st with book := st.book.set_online dest now, senders := dictSet dest s.send_stash st.senders },
        Event.contactOnline name :: ((s.stash.priv ++ s.stash.pub ++ s.stash.auth).map Event.requeued ++ [Event.wentOnline dest])) ∧
    ((Event.contactOnline name :: ((s.stash.priv ++ s.stash.pub ++ s.stash.auth).map Event.requeued ++ [Event.wentOnline dest])).filter Event.isContactOnline).length = 1 ∧
    dictGet dest (dictSet dest s.send_stash st.senders) = some { queue := s.queue ++ s.stash.priv ++ s.stash.pub ++ s.stash.auth, stash := ({} : Stash) } ∧
    (st.book.set_online dest now).is_online dest = true := by
  refine ⟨?_, ?_, ?_, ?_⟩
  · unfold destOnline
    rw [hname]
    simp only []
    rw [if_neg hne, if_neg (by simp [hoff]), hs]
  · rw [List.filter_cons_of_pos (by simp [Event.isContactOnline]), List.filter_append,
      filter_contactOnline_requeued, List.filter_cons_of_neg (by simp [Event.isContactOnline])]
    simp
  · rw [dictGet_set]
    simp [SenderState.send_stash]
  · exact is_online_set_online st.book dest now hpres

/-- C2 witness: the replay equation at a concrete offline contact. -/
theorem C2_witness :
    destOnline cSt cAddr52 7 =
      some ({ cSt with book := cSt.book.set_online cAddr52 7, senders := dictSet cAddr52 cSen.send_stash cSt.senders },
        Event.contactOnline "bob" :: ((cSen.stash.priv ++ cSen.stash.pub ++ cSen.stash.auth).map Event.requeued ++ [Event.wentOnline cAddr52])) :=
  (C2_dest_online_replay cSt cAddr52 "bob" cSen 7 (by decide) (by decide) (by decide) (by decide) (by decide)).1

theorem mem_dequeAppend_self {α : Type} (maxlen : Nat) (hm : 1 ≤ maxlen) (q : List α) (x : α) :
    x ∈ dequeAppend maxlen q x := by
  unfold dequeAppend
  rw [List.drop_append_eq_append_drop]
  have h1 : (q ++ [x]).length - maxlen - q.length = 0 := by simp; omega
  rw [h1]
  simp

theorem destOnline_fields (st : CoreState) (dest : String) (now : Nat) (st2 : CoreState)
    (ev : List Event) (h : destOnline st dest now = some (st2, ev)) :
    st2.uuidLog = st.uuidLog ∧ st2.ignoreUnauthorized = st.ignoreUnauthorized ∧
    st2.book.addressName = st.book.addressName ∧ st2.ownDest = st.ownDest := by
  unfold destOnline at h
  cases hn : st.book.get_name dest with
  | none => rw [hn] at h; cases h; exact ⟨rfl, rfl, rfl, rfl⟩
  | some name =>
    rw [hn] at h
    simp only [] at h
    by_cases hne : name = ""
    · rw [if_pos hne] at h; cases h; exact ⟨rfl, rfl, rfl, rfl⟩
    · rw [if_neg hne] at h
      by_cases honl : st.book.is_online dest = true
      · rw [if_pos honl] at h
        cases h
        exact ⟨rfl, rfl, set_online_addressName st.book dest now, rfl⟩
      · rw [if_neg honl] at h
        cases hs : dictGet dest st.senders with
        | none => rw [hs] at h; cases h
        | some s =>
          rw [hs] at h
          cases h
          exact ⟨rfl, rfl, set_online_addressName st.book dest now, rfl⟩

theorem destOnline_no_hooks (st : CoreState) (dest : String) (now : Nat) (st2 : CoreState)
    (ev : List Event) (u : List Nat) (h : destOnline st dest now = some (st2, ev)) :
    ev.filter (Event.isMsgHookFor u) = [] := by
  unfold destOnline at h
  cases hn : st.book.get_name dest with
  | none => rw [hn] at h; cases h; rfl
  | some name =>
    rw [hn] at h
    simp only [] at h
    by_cases hne : name = ""
    · rw [if_pos hne] at h; cases h; rfl
    · rw [if_neg hne] at h
      by_cases honl : st.book.is_online dest = true
      · rw [if_pos honl] at h
        cases h
        rfl
      · rw [if_neg honl] at h
        cases hs : dictGet dest st.senders with
        | none => rw [hs] at h; cases h
        | some s =>
          rw [hs] at h
          cases h
          rw [List.filter_cons_of_neg (by simp [Event.isMsgHookFor]), List.filter_append,
            List.filter_cons_of_neg (by simp [Event.isMsgHookFor])]
          have h2 : List.filter (Event.isMsgHookFor u) (List.map Event.requeued (s.stash.priv ++ s.stash.pub ++ s.stash.auth)) = [] := by
            induction (s.stash.priv ++ s.stash.pub ++ s.stash.auth) with
            | nil => rfl
            | cons m rest ih => simp [Event.isMsgHookFor, ih]
          rw [h2]
          rfl

theorem receiveMessage_dup (st : CoreState) (src : String) (bytes : List Nat) (m : Message)
    (now : Nat) (hparse : Message.parse bytes src = some m)
    (hgate : ¬ (strTruthy (st.book.get_name src) = false ∧ st.ignoreUnauthorized = true))
    (hdup : m.uuid ∈ st.uuidLog) :
    receiveMessage st src (HandlerInput.data bytes) now = some (st, some Reply.ok, []) := by
  unfold receiveMessage
  rw [if_neg hgate]
  simp only []
  rw [hparse]
  simp only []
  rw [if_pos hdup]

theorem receiveMessage_fresh (st : CoreState) (src : String) (bytes : List Nat) (m : Message)
    (now : Nat) (hparse : Message.parse bytes src = some m)
    (hgate : ¬ (strTruthy (st.book.get_name src) = false ∧ st.ignoreUnauthorized = true))
    (hfresh : m.uuid ∉ st.uuidLog) :
    ∀ st2 rep evs, receiveMessage st src (HandlerInput.data bytes) now = some (st2, rep, evs) →
      st2.uuidLog = dequeAppend 50 st.uuidLog m.uuid ∧
      st2.ignoreUnauthorized = st.ignoreUnauthorized ∧
      st2.book.addressName = st.book.addressName ∧
      (evs.filter (Event.isMsgHookFor m.uuid)).length ≤ 1 ∧
      ((m.code = Message.PING ∨ m.code = Message.AUTHORIZATION ∨
        (strTruthy (st.book.get_name src) = true ∧ (m.code = Message.PRIVATE ∨ m.code = Message.PUBLIC ∨ m.code = Message.UNAUTHORIZED))) →
        (evs.filter (Event.isMsgHookFor m.uuid)).length = 1) := by
  intro st2 rep evs h
  unfold receiveMessage at h
  rw [if_neg hgate] at h
  simp only [] at h
  rw [hparse] at h
  simp only [] at h
  rw [if_neg hfresh] at h
  by_cases hping : m.code = Message.PING ∨ m.code = Message.AUTHORIZATION
  · rw [if_pos hping] at h
    cases hdo : destOnline { st with uuidLog := dequeAppend 50 st.uuidLog m.uuid } m.destination now with
    | none => rw [hdo] at h; cases h
    | some r =>
      obtain ⟨st3, ev2⟩ := r
      rw [hdo] at h
      simp only [Option.some.injEq, Prod.mk.injEq] at h
      obtain ⟨h1, h2, h3⟩ := h
      subst h1
      subst h2
      subst h3
      obtain ⟨hf1, hf2, hf3, _⟩ := destOnline_fields _ _ _ _ _ hdo
      have hd0 : List.filter (Event.isMsgHookFor m.uuid) ev2 = [] :=
        destOnline_no_hooks _ _ _ _ _ _ hdo
      refine ⟨hf1, hf2, hf3, ?_, ?_⟩
      · rw [List.filter_append, hd0, List.append_nil]
        by_cases hp : m.code = Message.PING
        · rw [if_pos hp, List.filter_cons_of_pos (by simp [Event.isMsgHookFor])]
          simp
        · rw [if_neg hp, List.filter_cons_of_pos (by simp [Event.isMsgHookFor])]
          simp
      · intro _
        rw [List.filter_append, hd0, List.append_nil]
        by_cases hp : m.code = Message.PING
        · rw [if_pos hp, List.filter_cons_of_pos (by simp [Event.isMsgHookFor])]
          simp
        · rw [if_neg hp, List.filter_cons_of_pos (by simp [Event.isMsgHookFor])]
          simp
  · rw [if_neg hping] at h
    by_cases hknown : strTruthy (st.book.get_name src) = true
    · rw [if_pos hknown] at h
      cases hdo : destOnline { st with uuidLog := dequeAppend 50 st.uuidLog m.uuid } m.destination now with
      | none => rw [hdo] at h; cases h
      | some r =>
        obtain ⟨st3, ev2⟩ := r
        rw [hdo] at h
        simp only [Option.some.injEq, Prod.mk.injEq] at h
        obtain ⟨h1, h2, h3⟩ := h
        subst h1
        subst h2
        subst h3
        obtain ⟨hf1, hf2, hf3, _⟩ := destOnline_fields _ _ _ _ _ hdo
        have hd0 : List.filter (Event.isMsgHookFor m.uuid) ev2 = [] :=
          destOnline_no_hooks _ _ _ _ _ _ hdo
        have hdisp : ∀ l : List Event, (l.filter (Event.isMsgHookFor m.uuid)).length ≤ 1 →
            ((l ++ ev2).filter (Event.isMsgHookFor m.uuid)).length ≤ 1 := by
          intro l hl
          rw [List.filter_append, hd0, List.append_nil]
          exact hl
        refine ⟨hf1, hf2, hf3, ?_, ?_⟩
        · rw [List.filter_append, hd0, List.append_nil]
          by_cases h3 : m.code = Message.PRIVATE
          · rw [if_pos h3, List.filter_cons_of_pos (by simp [Event.isMsgHookFor])]; simp
          · rw [if_neg h3]
            by_cases h4 : m.code = Message.PUBLIC
            · rw [if_pos h4, List.filter_cons_of_pos (by simp [Event.isMsgHookFor])]; simp
            · rw [if_neg h4]
              by_cases h6 : m.code = Message.UNAUTHORIZED
              · rw [if_pos h6, List.filter_cons_of_pos (by simp [Event.isMsgHookFor])]; simp
              · rw [if_neg h6]; simp
        · intro hcond
          rw [List.filter_append, hd0, List.append_nil]
          rcases hcond with hc | hc | hc
          · exact absurd (Or.inl hc) hping
          · exact absurd (Or.inr hc) hping
          · rcases hc.2 with h3 | h3 | h3
            · rw [if_pos h3, List.filter_cons_of_pos (by simp [Event.isMsgHookFor])]; simp
            · rw [if_neg (by rw [h3]; decide), if_pos h3,
                List.filter_cons_of_pos (by simp [Event.isMsgHookFor])]
              simp
            · rw [if_neg (by rw [h3]; decide), if_neg (by rw [h3]; decide), if_pos h3,
                List.filter_cons_of_pos (by simp [Event.isMsgHookFor])]
              simp
    · rw [if_neg hknown] at h
      simp only [Option.some.injEq, Prod.mk.injEq] at h
      obtain ⟨h1, h2, h3⟩ := h
      subst h1
      subst h2
      subst h3
      refine ⟨rfl, rfl, rfl, by simp, ?_⟩
      intro hcond
      rcases hcond with hc | hc | hc
      · exact absurd (Or.inl hc) hping
      · exact absurd (Or.inr hc) hping
      · exact absurd hc.1 hknown

/-- C3 (amended): a parsed inbound message whose UUID is currently in the
dedup ring is acknowledged with OK, not dispatched to any hook, and leaves
the state unchanged; a parsed message with a fresh UUID has its UUID
appended to the bounded ring (capacity 50, oldest evicted), so an
immediately repeated reception is acknowledged with OK and not
re-dispatched — the two receptions together dispatch the message hook
exactly once (when the first reception dispatches at all, i.e. for
PING/AUTHORIZATION or for PRIVATE/PUBLIC/UNAUTHORIZED from a known peer).
Once 50 further UUIDs have been appended the UUID is evicted and a later
duplicate can be dispatched again (see the counterexample). -/
theorem C3_dedup_ring (st : CoreState) (src : String) (bytes : List Nat) (m : Message) (now : Nat)
    (hparse : Message.parse bytes src = some m)
    (hgate : ¬ (strTruthy (st.book.get_name src) = false ∧ st.ignoreUnauthorized = true)) :
    (m.uuid ∈ st.uuidLog →
      receiveMessage st src (HandlerInput.data bytes) now = some (st, some Reply.ok, [])) ∧
    (m.uuid ∉ st.uuidLog →
      ∀ st2 rep evs, receiveMessage st src (HandlerInput.data bytes) now = some (st2, rep, evs) →
        m.uuid ∈ st2.uuidLog ∧
        receiveMessage st2 src (HandlerInput.data bytes) now = some (st2, some Reply.ok, []) ∧
        (evs.filter (Event.isMsgHookFor m.uuid)).length ≤ 1 ∧
        ((m.code = Message.PING ∨ m.code = Message.AUTHORIZATION ∨
          (strTruthy (st.book.get_name src) = true ∧
           (m.code = Message.PRIVATE ∨ m.code = Message.PUBLIC ∨ m.code = Message.UNAUTHORIZED))) →
          (evs.filter (Event.isMsgHookFor m.uuid)).length = 1)) := by
  constructor
  · intro hdup
    exact receiveMessage_dup st src bytes m now hparse hgate hdup
  · intro hfresh st2 rep evs hres
    obtain ⟨hf1, hf2, hf3, hcount, hcond⟩ :=
      receiveMessage_fresh st src bytes m now hparse hgate hfresh st2 rep evs hres
    have hmem : m.uuid ∈ st2.uuidLog := by
      rw [hf1]
      exact mem_dequeAppend_self 50 (by omega) st.uuidLog m.uuid
    have hg2 : st2.book.get_name src = st.book.get_name src := by
      unfold Addressbook.get_name
      rw [hf3]
    have hgate2 : ¬ (strTruthy (st2.book.get_name src) = false ∧ st2.ignoreUnauthorized = true) := by
      rw [hg2, hf2]
      exact hgate
    exact ⟨hmem, receiveMessage_dup st2 src bytes m now hparse hgate2 hmem, hcount, hcond⟩

/-- C3 witness: the duplicate reception is OK-acked with no dispatch and no
state change. -/
theorem C3_witness :
    receiveMessage dupSt cAddr52 (HandlerInput.data (wirePriv 9)) 0 = some (dupSt, some Reply.ok, []) :=
  (C3_dedup_ring dupSt cAddr52 (wirePriv 9) mPriv9 0 (by decide) (by decide)).1 (by decide)

set_option maxRecDepth 100000 in
/-- C3 counterexample: over this concrete sequence of inbound messages the
message with uuid 0 is received twice but its hook is dispatched twice (51
distinct UUIDs in between evicted uuid 0 from the bounded ring), refuting
"receiving a message with the same UUID twice dispatches the hook exactly
once" as a statement about every sequence. -/
theorem C3_counterexample :
    (receiveRun dupRunState dupRunInputs 0).map
      (fun r => (r.2.filter (Event.isMsgHookFor (uuidBytes 0))).length) = some 2 := by
  decide

theorem addContact_fields (st : CoreState) (name addr yourName : String) (u : List Nat) :
    (addContact st name addr yourName u).2.uuidLog = st.uuidLog ∧
    (addContact st name addr yourName u).2.ignoreUnauthorized = st.ignoreUnauthorized := by
  unfold addContact
  by_cases h : addr = st.ownDest
  · rw [if_pos h]; exact ⟨rfl, rfl⟩
  · rw [if_neg h]
    cases hsi : st.book.setItem name addr with
    | error e => exact ⟨rfl, rfl⟩
    | ok b2 => exact ⟨rfl, rfl⟩

/-- C8: `add_contact` returns `false` and leaves the engine state unchanged
whenever the address equals the local destination, the name or address is
already present, or the address fails validation; on success it returns
`true`, the entry is in the address book, a per-peer sender exists for the
address, and its queue holds exactly one AUTHORIZATION message whose
content is `your_name`. -/
theorem C8_add_contact (st : CoreState) (name addr yourName : String) (u : List Nat) :
    ((addr = st.ownDest ∨ (dictGet name st.book.nameAddress).isSome = true ∨
      (dictGet addr st.book.addressName).isSome = true ∨
      Addressbook.is_valid_address addr = false) →
      addContact st name addr yourName u = (false, st)) ∧
    (addr ≠ st.ownDest → dictGet name st.book.nameAddress = none →
      dictGet addr st.book.addressName = none → Addressbook.is_valid_address addr = true →
      addContact st name addr yourName u =
        (true, { st with
          book := { nameAddress := dictSet name addr st.book.nameAddress,
                    addressName := dictSet addr name st.book.addressName,
                    lastSeen := dictSet addr none st.book.lastSeen,
                    onlineMap := dictSet addr false st.book.onlineMap },
          senders := dictSet addr { queue := [{ code := Message.AUTHORIZATION, uuid := u, content := strCodepoints yourName, destination := addr, name := none }], stash := {} } st.senders }) ∧
      dictGet name (addContact st name addr yourName u).2.book.nameAddress = some addr ∧
      dictGet addr (addContact st name addr yourName u).2.senders =
        some { queue := [{ code := Message.AUTHORIZATION, uuid := u, content := strCodepoints yourName, destination := addr, name := none }], stash := ({} : Stash) }) := by
  constructor
  · intro hfail
    unfold addContact
    by_cases haddr : addr = st.ownDest
    · rw [if_pos haddr]
    · rw [if_neg haddr]
      have herr : ∃ e, st.book.setItem name addr = Except.error e := by
        unfold Addressbook.setItem
        by_cases hdup : (dictGet name st.book.nameAddress).isSome ∨ (dictGet addr st.book.addressName).isSome
        · rw [if_pos hdup]; exact ⟨_, rfl⟩
        · rw [if_neg hdup]
          push_neg at hdup
          rcases hfail with h | h | h | h
          · exact absurd h haddr
          · exact absurd h hdup.1
          · exact absurd h hdup.2
          · rw [if_pos (by simp [h])]; exact ⟨_, rfl⟩
      obtain ⟨e, he⟩ := herr
      rw [he]
  · intro h1 h2 h3 h4
    have heq : addContact st name addr yourName u =
        (true, { st with
          book := { nameAddress := dictSet name addr st.book.nameAddress,
                    addressName := dictSet addr name st.book.addressName,
                    lastSeen := dictSet addr none st.book.lastSeen,
                    onlineMap := dictSet addr false st.book.onlineMap },
          senders := dictSet addr { queue := [{ code := Message.AUTHORIZATION, uuid := u, content := strCodepoints yourName, destination := addr, name := none }], stash := {} } st.senders }) := by
      unfold addContact
      rw [if_neg h1]
      unfold Addressbook.setItem
      rw [if_neg (by simp [h2, h3]), if_neg (by simp [h4])]
    refine ⟨heq, ?_, ?_⟩
    · rw [heq]
      simp only []
      rw [dictGet_set]
      simp
    · rw [heq]
      simp only []
      rw [dictGet_set]
      simp

/-- C8 witness: adding a fresh valid contact to the empty engine. -/
theorem C8_witness :
    dictGet cAddr52 (addContact {} "bob" cAddr52 "alice" (List.replicate 16 5)).2.senders =
      some { queue := [{ code := Message.AUTHORIZATION, uuid := List.replicate 16 5, content := strCodepoints "alice", destination := cAddr52, name := none }], stash := ({} : Stash) } :=
  ((C8_add_contact {} "bob" cAddr52 "alice" (List.replicate 16 5)).2 (by decide) (by decide)
    (by decide) (by decide)).2.2

/-- C9: in the inbound handler the duplicate-UUID check precedes the
authorization gating: a parsed message whose UUID is in the ring is
OK-acked and never dispatched even when the sender is unknown (who would
otherwise get an UNAUTHORIZED reply); the UUID of every successfully parsed
fresh message is appended to the ring even when the message is then
rejected with UNAUTHORIZED; consequently, after the unknown peer is added
as a contact, a message replayed with the same UUID is suppressed (OK-acked
with no dispatch). -/
theorem C9_dedup_precedes_auth (st : CoreState) (src : String) (bytes : List Nat) (m : Message)
    (now : Nat) (hparse : Message.parse bytes src = some m)
    (hunknown : st.book.get_name src = none)
    (hign : st.ignoreUnauthorized = false) :
    (m.uuid ∈ st.uuidLog →
      receiveMessage st src (HandlerInput.data bytes) now = some (st, some Reply.ok, [])) ∧
    (m.uuid ∉ st.uuidLog → m.code ≠ Message.PING → m.code ≠ Message.AUTHORIZATION →
      receiveMessage st src (HandlerInput.data bytes) now =
        some ({ st with uuidLog := dequeAppend 50 st.uuidLog m.uuid }, some Reply.unauthorized, [])) ∧
    (m.uuid ∉ st.uuidLog → ∀ cname yourName u,
      receiveMessage (addContact { st with uuidLog := dequeAppend 50 st.uuidLog m.uuid } cname src yourName u).2 src (HandlerInput.data bytes) now =
        some ((addContact { st with uuidLog := dequeAppend 50 st.uuidLog m.uuid } cname src yourName u).2, some Reply.ok, [])) := by
  have hgate : ¬ (strTruthy (st.book.get_name src) = false ∧ st.ignoreUnauthorized = true) := by
    intro hh
    rw [hign] at hh
    cases hh.2
  refine ⟨?_, ?_, ?_⟩
  · intro hdup
    exact receiveMessage_dup st src bytes m now hparse hgate hdup
  · intro hfresh hp ha
    unfold receiveMessage
    rw [if_neg hgate]
    simp only []
    rw [hparse]
    simp only []
    rw [if_neg hfresh]
    rw [if_neg (by rintro (h | h); exact hp h; exact ha h)]
    rw [if_neg (by rw [hunknown]; intro hh; cases hh)]
  · intro hfresh cname yourName u
    obtain ⟨ha1, ha2⟩ :=
      addContact_fields { st with uuidLog := dequeAppend 50 st.uuidLog m.uuid } cname src yourName u
    have hgateA : ¬ (strTruthy ((addContact { st with uuidLog := dequeAppend 50 st.uuidLog m.uuid } cname src yourName u).2.book.get_name src) = false ∧ (addContact { st with uuidLog := dequeAppend 50 st.uuidLog m.uuid } cname src yourName u).2.ignoreUnauthorized = true) := by
      intro hh
      rw [ha2] at hh
      simp only [] at hh
      rw [hign] at hh
      cases hh.2
    have hdupA : m.uuid ∈ (addContact { st with uuidLog := dequeAppend 50 st.uuidLog m.uuid } cname src yourName u).2.uuidLog := by
      rw [ha1]
      exact mem_dequeAppend_self 50 (by omega) st.uuidLog m.uuid
    exact receiveMessage_dup _ src bytes m now hparse hgateA hdupA

/-- C9 witness: an unknown peer's replayed UUID stays suppressed after the
peer is added as a contact. -/
theorem C9_witness :
    receiveMessage (addContact { uuidLog := dequeAppend 50 [] (uuidBytes 9) } "bob" cAddr52 "al" (List.replicate 16 5)).2 cAddr52 (HandlerInput.data (wirePriv 9)) 0 =
      some ((addContact { uuidLog := dequeAppend 50 [] (uuidBytes 9) } "bob" cAddr52 "al" (List.replicate 16 5)).2, some Reply.ok, []) :=
  (C9_dedup_precedes_auth {} cAddr52 (wirePriv 9) mPriv9 0 (by decide) (by decide) (by decide)).2.2
    (by decide) "bob" "al" (List.replicate 16 5)

/-- C10: `send_message` is total exactly on destinations with a registered
per-peer sender: with a sender it never fails — it appends the message to
the sender queue when the address book marks the destination online and
otherwise appends to the sender stash (where codes other than PRIVATE,
PUBLIC, AUTHORIZATION are silently dropped); without a sender both the
online and the offline branch raise `KeyError`. -/
theorem C10_send_message (st : CoreState) (msg : Message) :
    (∀ s, dictGet msg.destination st.senders = some s →
      (st.book.is_online msg.destination = true →
        sendMessage st msg = some { st with senders := dictSet msg.destination { s with queue := s.queue ++ [msg] } st.senders }) ∧
      (st.book.is_online msg.destination = false →
        sendMessage st msg = some { st with senders := dictSet msg.destination { s with stash := s.stash.add msg } st.senders })) ∧
    (dictGet msg.destination st.senders = none → sendMessage st msg = none) ∧
    (msg.code ≠ Message.PRIVATE → msg.code ≠ Message.PUBLIC → msg.code ≠ Message.AUTHORIZATION →
      ∀ s : Stash, s.add msg = s) := by
  refine ⟨?_, ?_, ?_⟩
  · intro s hs
    constructor
    · intro honl
      unfold sendMessage
      rw [if_pos honl, hs]
    · intro hoff
      unfold sendMessage
      rw [if_neg (by simp [hoff]), hs]
  · intro hs
    unfold sendMessage
    by_cases honl : st.book.is_online msg.destination = true
    · rw [if_pos honl, hs]
    · rw [if_neg honl, hs]
  · intro h1 h2 h3 s
    unfold Stash.add
    rw [if_neg h1, if_neg h2, if_neg h3]

/-- C10 witness: sending to an offline contact with a registered sender
stashes the message. -/
theorem C10_witness :
    sendMessage cSt cMsg1 = some { cSt with senders := dictSet cAddr52 { cSen with stash := cSen.stash.add cMsg1 } cSt.senders } :=
  ((C10_send_message cSt cMsg1).1 cSen (by decide)).2 (by decide)

/-- C6: the pinger's peer selection (counter starting at 0): uptime < 1800 s
or no online peers selects all contacts; else a counter of 6 selects all
contacts and resets the counter to 0; else only the online peers are
selected and the counter is incremented. -/
theorem C6_pinger_selection (uptime : Nat) (b : Addressbook) (x : Nat) :
    pingerInitX = 0 ∧
    ((uptime < 1800 ∨ b.online_peers = []) → pingerSelect uptime b x = (b.values, x)) ∧
    (¬ (uptime < 1800 ∨ b.online_peers = []) → x = 6 → pingerSelect uptime b x = (b.values, 0)) ∧
    (¬ (uptime < 1800 ∨ b.online_peers = []) → x ≠ 6 → pingerSelect uptime b x = (b.online_peers, x + 1)) := by
  refine ⟨rfl, ?_, ?_, ?_⟩
  · intro h
    unfold pingerSelect
    rw [if_pos h]
  · intro h h6
    unfold pingerSelect
    rw [if_neg h, if_pos h6]
  · intro h h6
    unfold pingerSelect
    rw [if_neg h, if_neg h6]

/-- C6 witness: within the first half hour all contacts are selected. -/
theorem C6_witness : pingerSelect 100 cBook 3 = (cBook.values, 3) :=
  (C6_pinger_selection 100 cBook 3).2.1 (Or.inl (by omega))

end Kote

